import Mathlib

/-!
Verification of the hotel-review RAG pipeline.

This file is a shallow embedding, in Lean 4, of the core retrieval, fusion,
ranking, and orchestration code of the hotel-dashboard repository
(src/rag-service/modules: index.py, intent.py, retriever.py, ranker.py,
rag_system.py; the notebook copy src/RAG/lib.py contains the same code).

Embedding conventions:
* Python floats are modelled as exact rationals (ℚ); the mathematical
  functions np.log / np.exp, which the code applies to already-computed
  rational arguments, appear either as Real.log / Real.exp in theorem
  statements or as explicit function parameters of the embedded code.
* Python dicts are modelled as insertion-ordered association lists, because
  the code relies on dict iteration order (Python ≥ 3.7 preserves insertion
  order) when it sorts score tables with a stable sort.
* External services (LLM, embedding, vector stores, reranker) are modelled
  by their responses, passed in as parameters.
* Tokenization (jieba + stopword filtering) is external and deterministic;
  documents and queries enter the embedding as token lists.
-/

namespace HotelRAG

/-! ## Python dict score accumulation

Both InvertedIndex.search and HybridRetriever._rrf_fusion accumulate
floating-point scores in a dict keyed by document id.  An entry is created at
the first contribution and updated in place afterwards, so iteration order is
first-contribution order. -/

/-- Python dict lookup d[k] as an Option, over an insertion-ordered
association list. -/
def dlookup {κ β : Type} [DecidableEq κ] (l : List (κ × β)) (k : κ) : Option β :=
  match l with
  | [] => none
  | (k0, v) :: rest => if k0 = k then some v else dlookup rest k

/-- Lookup in an insertion-ordered association table, with the 0 default the
code uses (scores.get(doc_id, 0) / defaultdict(float)). -/
def lookupScore (l : List (Nat × ℚ)) (d : Nat) : ℚ :=
  match l with
  | [] => 0
  | (d0, v) :: rest => if d0 = d then v else lookupScore rest d

/-- One accumulation step scores[d] = scores.get(d, 0) + s on an
insertion-ordered association table: an existing entry is updated in place, a
new entry is appended at the end. -/
def addScore (l : List (Nat × ℚ)) (d : Nat) (s : ℚ) : List (Nat × ℚ) :=
  match l with
  | [] => [(d, s)]
  | (d0, v) :: rest => if d0 = d then (d0, v + s) :: rest else (d0, v) :: addScore rest d s

theorem lookupScore_addScore (l : List (Nat × ℚ)) (d : Nat) (s : ℚ) (e : Nat) :
    lookupScore (addScore l d s) e = lookupScore l e + (if d = e then s else 0) := by
  induction l with
  | nil =>
    by_cases h : d = e <;> simp [addScore, lookupScore, h]
  | cons p rest ih =>
    obtain ⟨d0, v⟩ := p
    by_cases h0 : d0 = d
    · subst h0
      by_cases h1 : d0 = e
      · subst h1
        simp [addScore, lookupScore]
      · simp [addScore, lookupScore, h1]
    · by_cases h1 : d0 = e
      · subst h1
        have hde : ¬ d = d0 := fun h => h0 h.symm
        simp [addScore, lookupScore, h0, hde]
      · simp [addScore, lookupScore, h0, h1, ih]

/-- Score-table accumulation over a list of contributions, each keyed by
key x and worth f x: the final score of a key is its initial score plus the
sum of its contributions. -/
theorem lookupScore_foldl_addScore {α : Type} (key : α → Nat) (f : α → ℚ) :
    ∀ (l : List α) (acc : List (Nat × ℚ)) (d : Nat),
      lookupScore (l.foldl (fun sc x => addScore sc (key x) (f x)) acc) d =
        lookupScore acc d + ((l.filter (fun x => key x == d)).map f).sum := by
  intro l
  induction l with
  | nil => simp
  | cons x xs ih =>
    intro acc d
    simp only [List.foldl_cons, List.filter_cons]
    by_cases h : key x = d
    · simp only [h, beq_self_eq_true, if_true, List.map_cons, List.sum_cons]
      rw [ih, lookupScore_addScore]
      simp only [if_pos rfl, if_true]
      ring
    · have hb : (key x == d) = false := beq_eq_false_iff_ne.mpr h
      simp only [hb, Bool.false_eq_true, if_false]
      rw [ih, lookupScore_addScore, if_neg h]
      ring

theorem keys_addScore (l : List (Nat × ℚ)) (d : Nat) (s : ℚ) :
    (addScore l d s).map Prod.fst =
      if d ∈ l.map Prod.fst then l.map Prod.fst else l.map Prod.fst ++ [d] := by
  induction l with
  | nil => simp [addScore]
  | cons p rest ih =>
    obtain ⟨d0, v⟩ := p
    by_cases h0 : d0 = d
    · subst h0
      simp [addScore]
    · have hne : ¬ d = d0 := fun h => h0 h.symm
      by_cases hm : d ∈ rest.map Prod.fst <;>
        simp [addScore, h0, hne, hm, ih]

theorem nodup_keys_addScore (l : List (Nat × ℚ)) (d : Nat) (s : ℚ)
    (h : (l.map Prod.fst).Nodup) : ((addScore l d s).map Prod.fst).Nodup := by
  rw [keys_addScore]
  by_cases hm : d ∈ l.map Prod.fst
  · simpa [hm] using h
  · simp only [hm, if_false]
    simpa [List.nodup_append, hm] using h

theorem nodup_keys_foldl_addScore {α : Type} (key : α → Nat) (f : α → ℚ) :
    ∀ (l : List α) (acc : List (Nat × ℚ)), (acc.map Prod.fst).Nodup →
      ((l.foldl (fun sc x => addScore sc (key x) (f x)) acc).map Prod.fst).Nodup := by
  intro l
  induction l with
  | nil => intro acc h; simpa using h
  | cons x xs ih =>
    intro acc h
    exact ih _ (nodup_keys_addScore _ _ _ h)

theorem lookupScore_eq_of_mem (l : List (Nat × ℚ)) (d : Nat) (s : ℚ)
    (hnd : (l.map Prod.fst).Nodup) (hm : (d, s) ∈ l) : lookupScore l d = s := by
  induction l with
  | nil => cases hm
  | cons p rest ih =>
    obtain ⟨d0, v⟩ := p
    rcases List.mem_cons.mp hm with h | h
    · injection h with h1 h2
      subst h1
      subst h2
      simp [lookupScore]
    · have hd0 : d0 ≠ d := by
        intro he
        subst he
        have : d0 ∈ rest.map Prod.fst := List.mem_map.mpr ⟨(d0, s), h, rfl⟩
        exact (List.nodup_cons.mp hnd).1 this
      simp only [lookupScore, if_neg hd0]
      exact ih (List.nodup_cons.mp hnd).2 h

/-! ## InvertedIndex (modules/index.py)

The BM25 inverted index.  Documents arrive pre-tokenized (tokenize is
jieba-based and external to this embedding; it is deterministic and shared by
the build and query paths).  Document ids are natural numbers. -/

structure InvertedIndex where
  index : List (String × List (Nat × Nat))
  doc_lengths : List (Nat × Nat)
  avg_doc_length : ℚ
  num_docs : Nat
  k1 : ℚ
  b : ℚ

/-- One step of collections.Counter: counts keyed by token, keys in
first-occurrence order. -/
def addCount (l : List (String × Nat)) (t : String) : List (String × Nat) :=
  match l with
  | [] => [(t, 1)]
  | (t0, c) :: rest => if t0 = t then (t0, c + 1) :: rest else (t0, c) :: addCount rest t

/-- collections.Counter(tokens) as an insertion-ordered association list. -/
def countTokens (tokens : List String) : List (String × Nat) :=
  tokens.foldl addCount []

/-- self.index[term][doc_id] = freq: a new term is appended at the end of the
index dict, a new posting at the end of the term's postings dict. -/
def addPosting (idx : List (String × List (Nat × Nat))) (t : String) (d : Nat) (f : Nat) :
    List (String × List (Nat × Nat)) :=
  match idx with
  | [] => [(t, [(d, f)])]
  | (t0, pl) :: rest =>
    if t0 = t then (t0, pl ++ [(d, f)]) :: rest else (t0, pl) :: addPosting rest t d f

/-- InvertedIndex.build over pre-tokenized documents, with the default BM25
constants k1 = 1.5, b = 0.75 from InvertedIndex.__init__. -/
def buildIndex (documents : List (Nat × List String)) : InvertedIndex :=
  let st := documents.foldl
    (fun st doc =>
      let tokens := doc.2
      let tf := countTokens tokens
      let idx := tf.foldl (fun ix p => addPosting ix p.1 doc.1 p.2) st.1
      (idx, st.2.1 ++ [(doc.1, tokens.length)], st.2.2 + tokens.length))
    ([], [], 0)
  { index := st.1
    doc_lengths := st.2.1
    num_docs := documents.length
    avg_doc_length := if documents.length = 0 then 0 else (st.2.2 : ℚ) / (documents.length : ℚ)
    k1 := 3/2
    b := 3/4 }

/-- The per-term IDF weight computed by InvertedIndex.search:
max(0, (num_docs - df + 0.5) / (df + 0.5) + 1). -/
def idf (num_docs df : Nat) : ℚ :=
  max 0 (((num_docs : ℚ) - (df : ℚ) + 1/2) / ((df : ℚ) + 1/2) + 1)

/-- self.doc_lengths[doc_id] as a rational. -/
def docLength (idx : InvertedIndex) (d : Nat) : ℚ :=
  (((dlookup idx.doc_lengths d).getD 0 : Nat) : ℚ)

/-- norm_factor = 1 - b + b * (doc_length / avg_doc_length). -/
def normFactor (idx : InvertedIndex) (d : Nat) : ℚ :=
  1 - idx.b + idx.b * (docLength idx d / idx.avg_doc_length)

/-- term_score = idf[term] * (tf * (k1 + 1)) / (tf + k1 * norm_factor). -/
def termScore (idx : InvertedIndex) (df : Nat) (d : Nat) (tf : Nat) : ℚ :=
  idf idx.num_docs df * ((tf : ℚ) * (idx.k1 + 1)) / ((tf : ℚ) + idx.k1 * normFactor idx d)

/-- The inner loop of InvertedIndex.search for one query token: terms absent
from the index contribute nothing; present terms add a term score to every
posting's document, with df the posting-list size. -/
def scoreTerm (idx : InvertedIndex) (scores : List (Nat × ℚ)) (term : String) :
    List (Nat × ℚ) :=
  match dlookup idx.index term with
  | none => scores
  | some postings =>
    postings.foldl (fun sc p => addScore sc p.1 (termScore idx postings.length p.1 p.2)) scores

/-- The scores dict built by InvertedIndex.search over all query token
occurrences (a token occurring twice in the query contributes twice, exactly
as the Python loop over query_tokens does). -/
def computeScores (idx : InvertedIndex) (query_tokens : List String) : List (Nat × ℚ) :=
  query_tokens.foldl (scoreTerm idx) []

/-- The comparison used by sorted(scores.items(), key=lambda x: x[1],
reverse=True): order by score only, descending; Python's sort is stable, so
ties keep first-contribution order. -/
def scoreDesc (a b : Nat × ℚ) : Prop := b.2 ≤ a.2

instance : DecidableRel scoreDesc := fun a b => inferInstanceAs (Decidable (b.2 ≤ a.2))

/-- InvertedIndex.search on a tokenized query: empty token list returns [];
otherwise the score table is stable-sorted by score descending and truncated
to topk. -/
def searchTokens (idx : InvertedIndex) (query_tokens : List String) (topk : Nat) :
    List (Nat × ℚ) :=
  if query_tokens.isEmpty then []
  else ((computeScores idx query_tokens).insertionSort scoreDesc).take topk

/-! ### Structural facts about search -/

theorem nodup_keys_scoreTerm (idx : InvertedIndex) (scores : List (Nat × ℚ)) (t : String)
    (h : (scores.map Prod.fst).Nodup) : ((scoreTerm idx scores t).map Prod.fst).Nodup := by
  unfold scoreTerm
  cases dlookup idx.index t with
  | none => exact h
  | some postings =>
    exact nodup_keys_foldl_addScore Prod.fst
      (fun p => termScore idx postings.length p.1 p.2) postings scores h

theorem nodup_keys_computeScores (idx : InvertedIndex) (query_tokens : List String) :
    ((computeScores idx query_tokens).map Prod.fst).Nodup := by
  suffices hgen : ∀ (ts : List String) (acc : List (Nat × ℚ)), (acc.map Prod.fst).Nodup →
      ((ts.foldl (scoreTerm idx) acc).map Prod.fst).Nodup by
    exact hgen query_tokens [] (by simp)
  intro ts
  induction ts with
  | nil => intro acc h; simpa using h
  | cons t ts ih =>
    intro acc h
    exact ih _ (nodup_keys_scoreTerm idx acc t h)

theorem nodup_keys_searchTokens (idx : InvertedIndex) (query_tokens : List String) (topk : Nat) :
    ((searchTokens idx query_tokens topk).map Prod.fst).Nodup := by
  unfold searchTokens
  by_cases h : query_tokens.isEmpty
  · simp [h]
  · simp only [h, Bool.false_eq_true, if_false]
    have hperm := (List.perm_insertionSort scoreDesc (computeScores idx query_tokens)).map Prod.fst
    have hnd : (((computeScores idx query_tokens).insertionSort scoreDesc).map Prod.fst).Nodup :=
      hperm.nodup_iff.mpr (nodup_keys_computeScores idx query_tokens)
    exact hnd.sublist ((List.take_sublist _ _).map Prod.fst)

/-- The total contribution of one query-token occurrence to document d: zero
for terms absent from the index, otherwise the term score over the (at most
one) posting of d, with df the posting-list size. -/
def termContribution (idx : InvertedIndex) (term : String) (d : Nat) : ℚ :=
  match dlookup idx.index term with
  | none => 0
  | some postings =>
    ((postings.filter (fun p => p.1 == d)).map
      (fun p => termScore idx postings.length p.1 p.2)).sum

theorem lookupScore_scoreTerm (idx : InvertedIndex) (scores : List (Nat × ℚ)) (t : String)
    (d : Nat) :
    lookupScore (scoreTerm idx scores t) d = lookupScore scores d + termContribution idx t d := by
  unfold scoreTerm termContribution
  cases dlookup idx.index t with
  | none => simp
  | some postings =>
    exact lookupScore_foldl_addScore Prod.fst
      (fun p => termScore idx postings.length p.1 p.2) postings scores d

/-- The score table of InvertedIndex.search holds, for every document, the
sum over all query-token occurrences of that token's term contribution. -/
theorem lookupScore_computeScores (idx : InvertedIndex) (query_tokens : List String)
    (d : Nat) :
    lookupScore (computeScores idx query_tokens) d =
      (query_tokens.map (fun t => termContribution idx t d)).sum := by
  unfold computeScores
  suffices hgen : ∀ (ts : List String) (acc : List (Nat × ℚ)),
      lookupScore (ts.foldl (scoreTerm idx) acc) d =
        lookupScore acc d + (ts.map (fun t => termContribution idx t d)).sum by
    have := hgen query_tokens []
    simpa [lookupScore] using this
  intro ts
  induction ts with
  | nil => intro acc; simp
  | cons t ts ih =>
    intro acc
    simp only [List.foldl_cons, List.map_cons, List.sum_cons]
    rw [ih, lookupScore_scoreTerm]
    ring

/-- Every (comment_id, score) pair returned by InvertedIndex.search carries
exactly the per-term sum Σ_t termContribution(t, d) — the BM25 formula with
the index's idf weight (which, per C2, lacks the logarithm). -/
theorem searchTokens_score_formula (idx : InvertedIndex) (query_tokens : List String)
    (topk : Nat) (d : Nat) (s : ℚ)
    (hm : (d, s) ∈ searchTokens idx query_tokens topk) :
    s = (query_tokens.map (fun t => termContribution idx t d)).sum := by
  unfold searchTokens at hm
  by_cases h : query_tokens.isEmpty
  · simp [h] at hm
  · simp only [h, Bool.false_eq_true, if_false] at hm
    have hm2 : (d, s) ∈ (computeScores idx query_tokens).insertionSort scoreDesc :=
      (List.take_sublist _ _).mem hm
    have hm3 : (d, s) ∈ computeScores idx query_tokens :=
      (List.perm_insertionSort scoreDesc _).mem_iff.mp hm2
    have hlk : lookupScore (computeScores idx query_tokens) d = s :=
      lookupScore_eq_of_mem _ _ _ (nodup_keys_computeScores idx query_tokens) hm3
    rw [← hlk, lookupScore_computeScores]

instance : IsTotal (Nat × ℚ) scoreDesc := ⟨fun a b => le_total b.2 a.2⟩

instance : IsTrans (Nat × ℚ) scoreDesc := ⟨fun _ _ _ h h2 => le_trans h2 h⟩

/-- C8 (amended): InvertedIndex.search returns at most topk (comment_id,
score) pairs sorted by BM25 score descending; ties are NOT broken by
comment_id — the stable sort keeps them in first-contribution order, which
follows the index insertion order of the postings. -/
theorem c8_search_sorted_by_score (idx : InvertedIndex) (query_tokens : List String)
    (topk : Nat) :
    List.Pairwise (fun a b : Nat × ℚ => b.2 ≤ a.2) (searchTokens idx query_tokens topk) ∧
    (searchTokens idx query_tokens topk).length ≤ topk := by
  constructor
  · unfold searchTokens
    by_cases h : query_tokens.isEmpty
    · simp [h]
    · simp only [h, Bool.false_eq_true, if_false]
      have hs : List.Pairwise scoreDesc
          ((computeScores idx query_tokens).insertionSort scoreDesc) :=
        List.sorted_insertionSort scoreDesc (computeScores idx query_tokens)
      exact (hs.sublist (List.take_sublist _ _))
  · unfold searchTokens
    by_cases h : query_tokens.isEmpty
    · simp [h]
    · simp only [h, Bool.false_eq_true, if_false]
      exact List.length_take_le _ _

/-- C8 (counterexample): two identical one-token documents, the larger
comment_id inserted first.  Both receive the same BM25 score, and search
returns the larger id first — insertion order, not comment_id order. -/
theorem c8_tie_not_broken_by_id :
    searchTokens (buildIndex [(2, ["早餐"]), (1, ["早餐"])]) ["早餐"] 10 =
      [(2, 6/5), (1, 6/5)] ∧
    (searchTokens (buildIndex [(2, ["早餐"]), (1, ["早餐"])]) ["早餐"] 10).map Prod.fst ≠
      [1, 2] := by
  have h : searchTokens (buildIndex [(2, ["早餐"]), (1, ["早餐"])]) ["早餐"] 10 =
      [(2, 6/5), (1, 6/5)] := by
    norm_num [searchTokens, computeScores, buildIndex, countTokens, addCount, addPosting,
      scoreTerm, termScore, idf, normFactor, docLength, addScore, dlookup,
      List.insertionSort, List.orderedInsert, scoreDesc, max_def]
  refine ⟨h, ?_⟩
  rw [h]
  simp

/-- C2: the per-term weight InvertedIndex.search actually uses is
max(0, (N − df + 0.5)/(df + 0.5) + 1) with NO logarithm.  On a one-document
index where the tf part of the BM25 formula equals 1, the returned score is
exactly that weight, 4/3, which differs from the spec's
max(0, ln((N − df + 0.5)/(df + 0.5) + 1)) = ln(4/3). -/
theorem c2_idf_has_no_log :
    searchTokens (buildIndex [(1, ["早餐"])]) ["早餐"] 10 = [(1, 4/3)] ∧
    ((4:ℝ)/3 ≠ max 0 (Real.log (((1:ℝ) - 1 + 1/2) / (1 + 1/2) + 1))) := by
  constructor
  · norm_num [searchTokens, computeScores, buildIndex, countTokens, addCount, addPosting,
      scoreTerm, termScore, idf, normFactor, docLength, addScore, dlookup,
      List.insertionSort, List.orderedInsert, scoreDesc, max_def]
  · have h1 : ((1:ℝ) - 1 + 1/2) / (1 + 1/2) + 1 = 4/3 := by norm_num
    rw [h1]
    have h2 : Real.log (4/3) < 4/3 := by
      have := Real.log_lt_sub_one_of_pos (x := (4:ℝ)/3) (by norm_num) (by norm_num)
      linarith
    have h0 : (0:ℝ) < 4/3 := by norm_num
    exact fun h => absurd h.symm (ne_of_lt (max_lt h0 h2))

/-! ## HybridRetriever (modules/retriever.py)

Route hits are the tuples (doc_id, route_name, rank, metadata) the routes
emit; metadata is query_idx plus, for HyDE, hyde_idx.  Vector-store
responses are modelled by the document ids they return, in result order. -/

structure Hit where
  doc : Nat
  route : String
  rank : Nat
  query_idx : Nat
  hyde_idx : Option Nat := none
deriving DecidableEq

/-- HybridRetriever._single_bm25_query: one hit per search result, rank from
enumerate(-, 1). -/
def singleBm25Query (query_idx : Nat) (idx : InvertedIndex) (query_tokens : List String)
    (topk : Nat) : List Hit :=
  ((searchTokens idx query_tokens topk).enum).map
    (fun p => { doc := p.2.1, route := "bm25", rank := p.1 + 1, query_idx := query_idx })

/-- HybridRetriever._single_vector_query: one hit per document id returned by
the comment vector store. -/
def singleVectorQuery (query_idx : Nat) (response_doc_ids : List Nat) : List Hit :=
  (response_doc_ids.enum).map
    (fun p => { doc := p.2, route := "vector", rank := p.1 + 1, query_idx := query_idx })

/-- HybridRetriever._single_reverse_query: one hit per record returned by the
reverse-query vector store, carrying the comment_id stored in the record's
fields.  Several synthetic queries of the same comment may be recalled at
once, so the same comment_id may occur several times. -/
def singleReverseQuery (query_idx : Nat) (response_comment_ids : List Nat) : List Hit :=
  (response_comment_ids.enum).map
    (fun p => { doc := p.2, route := "reverse", rank := p.1 + 1, query_idx := query_idx })

/-- HybridRetriever._single_hyde_query for hypothesis hyde_idx. -/
def singleHydeQuery (query_idx hyde_idx : Nat) (response_doc_ids : List Nat) : List Hit :=
  (response_doc_ids.enum).map
    (fun p => { doc := p.2, route := "hyde", rank := p.1 + 1,
                query_idx := query_idx, hyde_idx := some hyde_idx })

/-- One step of the HyDE intra-sub-query deduplication loop: best_candidates
keeps, per doc id, the hit with the lowest rank, updating entries in place
(Python stores the pair (rank, item); the stored rank is the item's rank). -/
def updateBest (best : List (Nat × Hit)) (item : Hit) : List (Nat × Hit) :=
  match best with
  | [] => [(item.doc, item)]
  | (d, it) :: rest =>
    if d = item.doc then (if item.rank < it.rank then (d, item) else (d, it)) :: rest
    else (d, it) :: updateBest rest item

/-- The deduplication at the end of HybridRetriever._single_hyde_pipeline:
each comment keeps only its best-ranked hit among all hypotheses of one
sub-query. -/
def hydeDedup (raw_results : List Hit) : List Hit :=
  (raw_results.foldl updateBest []).map Prod.snd

/-- HybridRetriever._rrf_fusion: every hit adds
(1 / (k + rank)) * weights[query_idx] to its document's score; the scores
dict is keyed by doc id in first-contribution order. -/
def rrfFusion (all_results : List Hit) (weights : List ℚ) (k : ℚ := 60) : List (Nat × ℚ) :=
  all_results.foldl
    (fun sc h => addScore sc h.doc ((1 / (k + (h.rank : ℚ))) * weights.getD h.query_idx 0)) []

/-- Python truthiness of the optional room-type strings (None and the empty
string are falsy). -/
def pyTruthyStr (s : Option String) : Bool :=
  match s with
  | none => false
  | some v => !(v == "")

/-- The room filter built once at the top of HybridRetriever.retrieve:
room_type dominates, else fuzzy_room_type, else no filter. -/
def buildRoomFilter (room_type fuzzy_room_type : Option String) : Option String :=
  if pyTruthyStr room_type then
    some ("room_type = \x27" ++ room_type.getD "" ++ "\x27")
  else if pyTruthyStr fuzzy_room_type then
    some ("fuzzy_room_type = \x27" ++ fuzzy_room_type.getD "" ++ "\x27")
  else none

/-- The route fan-out of HybridRetriever.retrieve, as the list of submitted
route calls paired with the filter argument each one receives: _route_bm25
takes no filter, _route_vector/_route_reverse/_route_hyde receive
room_filter, _route_summary takes no filter. -/
def retrieveRouteCalls (room_type fuzzy_room_type : Option String)
    (enable_bm25 enable_vector enable_reverse enable_hyde enable_summary : Bool) :
    List (String × Option String) :=
  let room_filter := buildRoomFilter room_type fuzzy_room_type
  (if enable_bm25 then [("bm25", none)] else []) ++
  (if enable_vector then [("vector", room_filter)] else []) ++
  (if enable_reverse then [("reverse", room_filter)] else []) ++
  (if enable_hyde then [("hyde", room_filter)] else []) ++
  (if enable_summary then [("summary", none)] else [])

/-! ### Facts about the routes and RRF fusion -/

theorem map_doc_singleBm25Query (query_idx : Nat) (idx : InvertedIndex)
    (query_tokens : List String) (topk : Nat) :
    (singleBm25Query query_idx idx query_tokens topk).map Hit.doc =
      (searchTokens idx query_tokens topk).map Prod.fst := by
  unfold singleBm25Query
  rw [List.map_map]
  rw [show (Hit.doc ∘ fun p : Nat × (Nat × ℚ) =>
        ({ doc := p.2.1, route := "bm25", rank := p.1 + 1, query_idx := query_idx } : Hit)) =
      Prod.fst ∘ Prod.snd from rfl]
  rw [← List.map_map, List.enum_map_snd]

theorem keys_updateBest (best : List (Nat × Hit)) (item : Hit) :
    (updateBest best item).map Prod.fst =
      if item.doc ∈ best.map Prod.fst then best.map Prod.fst
      else best.map Prod.fst ++ [item.doc] := by
  induction best with
  | nil => simp [updateBest]
  | cons p rest ih =>
    obtain ⟨d, it⟩ := p
    by_cases h0 : d = item.doc
    · subst h0
      by_cases hr : item.rank < it.rank <;> simp [updateBest, hr]
    · have hne : ¬ item.doc = d := fun h => h0 h.symm
      by_cases hm : item.doc ∈ rest.map Prod.fst <;> simp [updateBest, h0, hne, hm, ih]

theorem nodup_keys_updateBest (best : List (Nat × Hit)) (item : Hit)
    (h : (best.map Prod.fst).Nodup) : ((updateBest best item).map Prod.fst).Nodup := by
  rw [keys_updateBest]
  by_cases hm : item.doc ∈ best.map Prod.fst
  · simpa [hm] using h
  · simp only [hm, if_false]
    simpa [List.nodup_append, hm] using h

theorem vals_updateBest (best : List (Nat × Hit)) (item : Hit)
    (h : ∀ p ∈ best, Hit.doc p.2 = p.1) :
    ∀ p ∈ updateBest best item, Hit.doc p.2 = p.1 := by
  induction best with
  | nil =>
    intro p hp
    simp only [updateBest, List.mem_singleton] at hp
    subst hp
    rfl
  | cons q rest ih =>
    obtain ⟨d, it⟩ := q
    intro p hp
    by_cases h0 : d = item.doc
    · subst h0
      by_cases hr : item.rank < it.rank
      · simp only [updateBest, if_pos rfl, if_pos hr] at hp
        rcases List.mem_cons.mp hp with h2 | h2
        · subst h2; rfl
        · exact h p (List.mem_cons_of_mem _ h2)
      · simp only [updateBest, if_pos rfl, if_neg hr] at hp
        rcases List.mem_cons.mp hp with h2 | h2
        · subst h2; exact h (item.doc, it) (List.mem_cons_self _ _)
        · exact h p (List.mem_cons_of_mem _ h2)
    · simp only [updateBest, if_neg h0] at hp
      rcases List.mem_cons.mp hp with h2 | h2
      · subst h2; exact h (d, it) (List.mem_cons_self _ _)
      · exact ih (fun q hq => h q (List.mem_cons_of_mem _ hq)) p h2

theorem nodup_doc_hydeDedup (raw_results : List Hit) :
    ((hydeDedup raw_results).map Hit.doc).Nodup := by
  suffices hgen : ∀ (l : List Hit) (best : List (Nat × Hit)),
      (best.map Prod.fst).Nodup → (∀ p ∈ best, Hit.doc p.2 = p.1) →
      (((l.foldl updateBest best).map Prod.snd).map Hit.doc).Nodup by
    exact hgen raw_results [] (by simp) (by simp)
  intro l
  induction l with
  | nil =>
    intro best h1 h2
    have hmap : (best.map Prod.snd).map Hit.doc = best.map Prod.fst := by
      rw [List.map_map]
      exact List.map_congr_left h2
    simpa [hmap] using h1
  | cons x xs ih =>
    intro best h1 h2
    exact ih (updateBest best x) (nodup_keys_updateBest best x h1) (vals_updateBest best x h2)

/-- C4 (amended): within a (route, query_idx) scope the bm25 route emits at
most one hit per document (the search score table has unique keys), and HyDE
hits are deduplicated per sub-query before fusion; the reverse route has no
such guarantee (see the counterexample). -/
theorem c4_per_scope_uniqueness :
    (∀ (query_idx : Nat) (idx : InvertedIndex) (query_tokens : List String) (topk : Nat),
       ((singleBm25Query query_idx idx query_tokens topk).map Hit.doc).Nodup) ∧
    (∀ raw_results : List Hit, ((hydeDedup raw_results).map Hit.doc).Nodup) := by
  constructor
  · intro query_idx idx query_tokens topk
    rw [map_doc_singleBm25Query]
    exact nodup_keys_searchTokens idx query_tokens topk
  · exact nodup_doc_hydeDedup

/-- C4 (counterexample): a single reverse-route query whose vector store
returns two synthetic-query records carrying the same comment_id 7 emits two
hits for comment 7, and RRF fusion adds both 1/(k+rank) contributions. -/
theorem c4_reverse_route_duplicates :
    singleReverseQuery 0 [7, 7] =
      [{ doc := 7, route := "reverse", rank := 1, query_idx := 0 },
       { doc := 7, route := "reverse", rank := 2, query_idx := 0 }] ∧
    lookupScore (rrfFusion (singleReverseQuery 0 [7, 7]) [1] 60) 7 = 1/61 + 1/62 ∧
    ¬ ((singleReverseQuery 0 [7, 7]).map Hit.doc).Nodup := by
  have h : singleReverseQuery 0 [7, 7] =
      [{ doc := 7, route := "reverse", rank := 1, query_idx := 0 },
       { doc := 7, route := "reverse", rank := 2, query_idx := 0 }] := by
    simp [singleReverseQuery, List.enum, List.enumFrom]
  refine ⟨h, ?_, ?_⟩
  · rw [h]
    norm_num [rrfFusion, addScore, lookupScore]
  · rw [h]
    simp [Hit.doc]

/-- C5: the fused RRF score of a document is the sum, over all its hits, of
weight[query_idx] * 1/(k + rank).  The hypothesis restricts query indices to
the range of the weights list, where Python's weights[query_idx] is defined. -/
theorem c5_rrf_weighted_sum (hits : List Hit) (weights : List ℚ) (k : ℚ) (d : Nat)
    (_hq : ∀ h ∈ hits, h.query_idx < weights.length) :
    lookupScore (rrfFusion hits weights k) d =
      ((hits.filter (fun h => h.doc == d)).map
        (fun h => weights.getD h.query_idx 0 * (1 / (k + (h.rank : ℚ))))).sum := by
  unfold rrfFusion
  rw [lookupScore_foldl_addScore Hit.doc
    (fun h => (1 / (k + (h.rank : ℚ))) * weights.getD h.query_idx 0) hits [] d]
  have hcomm : ∀ h : Hit,
      (1 / (k + (h.rank : ℚ))) * weights.getD h.query_idx 0 =
        weights.getD h.query_idx 0 * (1 / (k + (h.rank : ℚ))) := fun h => mul_comm _ _
  simp only [hcomm, lookupScore, zero_add]

/-- Spec scenario 4: doc 5 hit at rank 1 for the 0.6-weight sub-query and at
rank 2 for the 0.4-weight sub-query. -/
def rrfExampleHits : List Hit :=
  [{ doc := 5, route := "bm25", rank := 1, query_idx := 0 },
   { doc := 5, route := "vector", rank := 2, query_idx := 1 }]

/-- Witness for C5: the fused score of doc 5 equals 0.6/61 + 0.4/62 exactly
(hence within the spec's 1e-9 tolerance). -/
theorem c5_rrf_witness :
    (∀ h ∈ rrfExampleHits, h.query_idx < ([3/5, 2/5] : List ℚ).length) ∧
    lookupScore (rrfFusion rrfExampleHits [3/5, 2/5] 60) 5 = 3/5 * (1/61) + 2/5 * (1/62) ∧
    |lookupScore (rrfFusion rrfExampleHits [3/5, 2/5] 60) 5 -
      (3/5 * (1/61) + 2/5 * (1/62))| ≤ 1/1000000000 := by
  have hq : ∀ h ∈ rrfExampleHits, h.query_idx < ([3/5, 2/5] : List ℚ).length := by
    intro h hm
    rcases List.mem_cons.mp hm with h1 | h1
    · subst h1; simp [rrfExampleHits]
    · rcases List.mem_cons.mp h1 with h2 | h2
      · subst h2; simp [rrfExampleHits]
      · cases h2
  have he := c5_rrf_weighted_sum rrfExampleHits [3/5, 2/5] 60 5 hq
  have hval : lookupScore (rrfFusion rrfExampleHits [3/5, 2/5] 60) 5 =
      3/5 * (1/61) + 2/5 * (1/62) := by
    rw [he]
    norm_num [rrfExampleHits]
  refine ⟨hq, hval, ?_⟩
  rw [hval]
  norm_num

theorem mem_retrieveRouteCalls (rt ft : Option String) (eb ev er eh es : Bool)
    (n : String) (a : Option String)
    (hm : (n, a) ∈ retrieveRouteCalls rt ft eb ev er eh es) :
    (n, a) = ("bm25", none) ∨ (n, a) = ("vector", buildRoomFilter rt ft) ∨
    (n, a) = ("reverse", buildRoomFilter rt ft) ∨ (n, a) = ("hyde", buildRoomFilter rt ft) ∨
    (n, a) = ("summary", none) := by
  unfold retrieveRouteCalls at hm
  cases eb <;> cases ev <;> cases er <;> cases eh <;> cases es <;> simp_all <;> tauto

/-- C10: the retriever builds exactly one filter — exact room_type dominates
and any fuzzy_room_type is then ignored; only fuzzy set gives the fuzzy
filter; neither set gives no filter — and the filter argument goes to the
vector, reverse, and HyDE route calls and never to the BM25 or summary route
calls. -/
theorem c10_room_filter_policy (rt ft : Option String) (eb ev er eh es : Bool) :
    (∀ v, rt = some v → v ≠ "" →
       buildRoomFilter rt ft = some ("room_type = \x27" ++ v ++ "\x27")) ∧
    (pyTruthyStr rt = false → ∀ v, ft = some v → v ≠ "" →
       buildRoomFilter rt ft = some ("fuzzy_room_type = \x27" ++ v ++ "\x27")) ∧
    (pyTruthyStr rt = false → pyTruthyStr ft = false → buildRoomFilter rt ft = none) ∧
    (∀ n a, (n, a) ∈ retrieveRouteCalls rt ft eb ev er eh es →
       ((n = "vector" ∨ n = "reverse" ∨ n = "hyde") → a = buildRoomFilter rt ft) ∧
       ((n = "bm25" ∨ n = "summary") → a = none)) := by
  refine ⟨?_, ?_, ?_, ?_⟩
  · intro v hv hne
    subst hv
    have ht : pyTruthyStr (some v) = true := by simp [pyTruthyStr, hne]
    simp [buildRoomFilter, ht]
  · intro h1 v hv hne
    subst hv
    have ht : pyTruthyStr (some v) = true := by simp [pyTruthyStr, hne]
    simp [buildRoomFilter, h1, ht]
  · intro h1 h2
    simp [buildRoomFilter, h1, h2]
  · intro n a hm
    rcases mem_retrieveRouteCalls rt ft eb ev er eh es n a hm with h | h | h | h | h <;>
      injection h with hn ha <;> subst hn <;> subst ha <;>
      exact ⟨by intro hc; rcases hc with hc | hc | hc <;> simp_all,
             by intro hc; rcases hc with hc | hc <;> simp_all⟩

/-- Witness for C10 at spec scenario 3: with both constraints set the issued
filter is exactly the exact-room-type filter. -/
theorem c10_witness :
    buildRoomFilter (some "花园大床房") (some "大床房") =
      some ("room_type = \x27" ++ "花园大床房" ++ "\x27") :=
  (c10_room_filter_policy (some "花园大床房") (some "大床房") true true true true true).1
    "花园大床房" rfl (by decide)

/-! ## IntentExpander (modules/intent.py) and the sub-query selection in
HotelReviewRAG.query / query_stream (modules/rag_system.py) -/

structure SubQuery where
  query : String
  weight : ℚ
deriving DecidableEq

/-- What one attempt of IntentExpander.expand observes after calling the LLM
and parsing: an exception (bad JSON, missing key, weight not float-coercible),
a rewritten_queries value that is not a list, or a parsed list. -/
inductive ExpandAttempt where
  | failure
  | notAList
  | aList (queries : List SubQuery)

/-- One loop iteration of IntentExpander.expand: a parsed list is returned
as-is — there is no validation of its length, weights, or weight sum; every
other outcome falls through to the next attempt. -/
def expandTry : ExpandAttempt → Option (List SubQuery)
  | .aList qs => some qs
  | _ => none

/-- IntentExpander.expand: two attempts (for i in range(2)); if both fail the
method returns None. -/
def expand (attempt1 attempt2 : ExpandAttempt) : Option (List SubQuery) :=
  match expandTry attempt1 with
  | some qs => some qs
  | none => expandTry attempt2

/-- The sub-query selection in HotelReviewRAG.query / query_stream:
rewritten_queries = intent_expansion_result if intent_expansion_result else
[{query: user_query, weight: 1.0}].  Python truthiness: None and the empty
list fall back to the identity sub-query; any non-empty list is used as-is. -/
def rewrittenQueries (expansion : Option (List SubQuery)) (user_query : String) :
    List SubQuery :=
  match expansion with
  | some qs => if qs.isEmpty then [{ query := user_query, weight := 1 }] else qs
  | none => [{ query := user_query, weight := 1 }]

/-- Transcribed from the spec for comparison with the code: 1–3 sub-queries,
every weight in {0.2, 0.4, 0.6, 0.8, 1.0}, weights summing to 1. -/
def specExpansionValid (qs : List SubQuery) : Prop :=
  1 ≤ qs.length ∧ qs.length ≤ 3 ∧
  (∀ q ∈ qs, q.weight = 1/5 ∨ q.weight = 2/5 ∨ q.weight = 3/5 ∨ q.weight = 4/5 ∨
    q.weight = 1) ∧
  (qs.map SubQuery.weight).sum = 1

/-- The spec's rejected example: two sub-queries of weight 0.5 each. -/
def halfHalfQueries : List SubQuery :=
  [{ query := "a", weight := 1/2 }, { query := "b", weight := 1/2 }]

/-- C3 (counterexample): an LLM output with two sub-queries of weight 0.5
each parses as a list, so the expander returns it and the pipeline uses it
unchanged — it is neither rejected nor replaced by the identity sub-query,
although it violates the spec's weight invariant. -/
theorem c3_invalid_weights_accepted :
    rewrittenQueries (expand (.aList halfHalfQueries) .failure) "q" = halfHalfQueries ∧
    ¬ specExpansionValid halfHalfQueries ∧
    rewrittenQueries (expand (.aList halfHalfQueries) .failure) "q" ≠
      [{ query := "q", weight := 1 }] := by
  have h : rewrittenQueries (expand (.aList halfHalfQueries) .failure) "q" =
      halfHalfQueries := by
    simp [rewrittenQueries, expand, expandTry, halfHalfQueries]
  refine ⟨h, ?_, ?_⟩
  · intro hvalid
    have hw := hvalid.2.2.1 { query := "a", weight := 1/2 }
      (by simp [halfHalfQueries])
    norm_num at hw
  · rw [h]
    simp only [halfHalfQueries, ne_eq, List.cons.injEq]
    intro heq
    have := heq.1
    simp at this

/-- C3 (amended): the pipeline performs no validation of the expander output:
any non-empty parsed list — whatever its length, weights, or weight sum — is
used as-is, and the identity sub-query {user_query, 1.0} is substituted only
when expansion fails (returns None) or yields an empty list. -/
theorem c3_no_output_validation (qs : List SubQuery) (attempt2 : ExpandAttempt)
    (user_query : String) (h : qs ≠ []) :
    rewrittenQueries (expand (.aList qs) attempt2) user_query = qs ∧
    rewrittenQueries (expand .failure .failure) user_query =
      [{ query := user_query, weight := 1 }] := by
  constructor
  · simp [rewrittenQueries, expand, expandTry, h]
  · simp [rewrittenQueries, expand, expandTry]

/-- Witness for C3 at the two-0.5-weight list. -/
theorem c3_no_output_validation_witness :
    halfHalfQueries ≠ [] ∧
    rewrittenQueries (expand (.aList halfHalfQueries) .failure) "maybe" = halfHalfQueries :=
  ⟨by simp [halfHalfQueries],
   (c3_no_output_validation halfHalfQueries .failure "maybe" (by simp [halfHalfQueries])).1⟩

/-! ## IntentRecognizer.recognize and its call sites (modules/intent.py,
modules/rag_system.py)

IntentRecognizer.recognize is declared as def recognize(self, query) — its
only parameter besides self is query.  Both HotelReviewRAG.query (line 140)
and HotelReviewRAG.query_stream (line 341) call it as
self.intent_recognizer.recognize(user_query, history=history).  Python raises
TypeError when a call passes a keyword argument that matches no parameter. -/

/-- The non-self parameter names of IntentRecognizer.recognize. -/
def recognizeParams : List String := ["query"]

structure PyCallArgs where
  positional : Nat
  keywords : List String

/-- Python's call binding check, restricted to what occurs here: every
positional argument must match a parameter and every keyword argument must
name a parameter (recognize has no *args / **kwargs). -/
def acceptsCall (params : List String) (call : PyCallArgs) : Bool :=
  decide (call.positional ≤ params.length) && call.keywords.all (fun k => params.contains k)

/-- The argument shape of the recognize(...) calls in query and query_stream:
one positional argument and the keyword argument history. -/
def recognizeCallShape : PyCallArgs := { positional := 1, keywords := ["history"] }

inductive PyResult (α : Type) where
  | ok (value : α)
  | typeError (message : String)
deriving DecidableEq

/-- The recognize call as made at rag_system.py:140 and rag_system.py:341:
Python checks the argument binding against the signature before the method
body can run.  The history value itself (a dict or None) never matters. -/
def callRecognize (history : Option (String × String)) (result : Bool) : PyResult Bool :=
  if acceptsCall recognizeParams recognizeCallShape then .ok result
  else .typeError "recognize got an unexpected keyword argument"

/-- Outcome of HotelReviewRAG.query: either an exception escaped, or the call
returned; in both cases we record which pipeline stages ran after intent
recognition. -/
inductive QueryOutcome where
  | raised (message : String) (stages_run : List String)
  | returned (stages_run : List String)
deriving DecidableEq

/-- HotelReviewRAG.query reduced to its stage skeleton: the recognize call is
the first statement that can fail; retrieval, ranking and generation all come
after it. -/
def querySim (history : Option (String × String)) (recognizer_result : Bool)
    (enable_generation : Bool) : QueryOutcome :=
  match callRecognize history recognizer_result with
  | .typeError m => .raised m []
  | .ok need_retrieval =>
    if need_retrieval then
      .returned (["detect", "expand", "retrieve", "rank"] ++
        (if enable_generation then ["generate"] else []))
    else
      .returned (if enable_generation then ["generate"] else [])

/-! ## SSE events of HotelReviewRAG.query_stream (modules/rag_system.py) -/

inductive SSEEvent where
  | intent (need_retrieval : Bool)
  | references (comments : Nat) (summaries : Nat)
  | chunk (content : String)
  | done
deriving DecidableEq

def eventType : SSEEvent → String
  | .intent _ => "intent"
  | .references _ _ => "references"
  | .chunk _ => "chunk"
  | .done => "done"

/-- The yield skeleton of HotelReviewRAG.query_stream.  A generator body runs
only when first advanced, so a TypeError from the recognize call escapes
before any event is yielded.  Otherwise the intent event is yielded
unconditionally right after recognition; the DIRECT branch then streams
chunks and done; the retrieval branch yields references (after retrieval and
ranking, abstracted to the counts it reports), then chunks, then done. -/
def queryStreamSim (recognize_outcome : PyResult Bool) (comments summaries : Nat)
    (chunks : List String) : List SSEEvent × Option String :=
  match recognize_outcome with
  | .typeError m => ([], some m)
  | .ok need_retrieval =>
    if need_retrieval then
      (SSEEvent.intent true :: SSEEvent.references comments summaries ::
        (chunks.map SSEEvent.chunk ++ [SSEEvent.done]), none)
    else
      (SSEEvent.intent false :: (chunks.map SSEEvent.chunk ++ [SSEEvent.done]), none)

/-- C1: for every history value (None included) the recognize call in query
and query_stream passes the keyword argument history, which recognize's
signature (self, query) does not accept, so both raise TypeError before any
stage runs and before any SSE event is emitted. -/
theorem c1_history_kwarg_raises (history : Option (String × String))
    (recognizer_result enable_generation : Bool) (comments summaries : Nat)
    (chunks : List String) :
    acceptsCall recognizeParams recognizeCallShape = false ∧
    querySim history recognizer_result enable_generation =
      .raised "recognize got an unexpected keyword argument" [] ∧
    queryStreamSim (callRecognize history recognizer_result) comments summaries chunks =
      ([], some "recognize got an unexpected keyword argument") := by
  have hacc : acceptsCall recognizeParams recognizeCallShape = false := by decide
  refine ⟨hacc, ?_, ?_⟩
  · simp [querySim, callRecognize, hacc]
  · simp [queryStreamSim, callRecognize, hacc]

/-- C9 (counterexample): on the DIRECT branch query_stream still yields the
intent event first — the emitted type sequence is intent chunk done, not the
claimed chunk done with no intent event. -/
theorem c9_direct_branch_emits_intent :
    ((queryStreamSim (.ok false) 0 0 ["你好！"]).1.map eventType =
      ["intent", "chunk", "done"]) ∧
    ((queryStreamSim (.ok false) 0 0 ["你好！"]).1.map eventType ≠ ["chunk", "done"]) := by
  constructor
  · simp [queryStreamSim, eventType]
  · simp [queryStreamSim, eventType]

/-- C9 (amended): granted that recognition returns (as coded it raises, see
C1), the emitted event-type sequence is intent references chunk* done on the
retrieval branch and intent chunk* done on the DIRECT branch: the intent
event is emitted in both branches, and there is one chunk event per generator
chunk (possibly zero). -/
theorem c9_event_type_sequence (comments summaries : Nat) (chunks : List String) :
    ((queryStreamSim (.ok true) comments summaries chunks).1.map eventType =
      "intent" :: "references" :: (chunks.map (fun _ => "chunk") ++ ["done"])) ∧
    ((queryStreamSim (.ok false) comments summaries chunks).1.map eventType =
      "intent" :: (chunks.map (fun _ => "chunk") ++ ["done"])) := by
  have hfun : (eventType ∘ SSEEvent.chunk) = (fun _ : String => "chunk") := rfl
  constructor <;> simp [queryStreamSim, eventType, List.map_map, hfun]

/-! ## MultiFactorRanker (modules/ranker.py)

The ranker's numeric work is elementwise over numpy arrays; we model one
candidate row per list entry.  np.log and np.exp are applied to
already-computed rational arguments; they enter the embedding as the function
parameters logFn and expFn (np.exp also as Real.exp in theorem statements),
since the sorting behaviour does not depend on which real function they are. -/

structure RankParams where
  w_relevance : ℚ := 2/5
  w_quality : ℚ := 1/4
  w_length : ℚ := 1/20
  w_review : ℚ := 1/20
  w_useful : ℚ := 1/20
  w_recency : ℚ := 1/5
  base_decay : ℚ := 1/2
  implied_boost : ℚ := 1/2
  clear_boost : ℚ := 1/2
  half_life_days : ℚ := 180

def defaultRankParams : RankParams := {}

/-- The decay selection in MultiFactorRanker.rank: decay = base_decay,
plus implied_boost when time_sensitivity == "implied", plus implied_boost +
clear_boost when time_sensitivity == "clear"; any other value (None included)
keeps the base decay. -/
def decayFor (p : RankParams) (time_sensitivity : Option String) : ℚ :=
  if time_sensitivity = some "implied" then p.base_decay + p.implied_boost
  else if time_sensitivity = some "clear" then p.base_decay + p.implied_boost + p.clear_boost
  else p.base_decay

/-- The argument of np.exp in the recency feature:
-decay * max(days_ago, 0) / half_life_days, where delta_days is the whole-day
difference today - publish_date. -/
def recencyExponent (decay half_life_days : ℚ) (delta_days : ℤ) : ℚ :=
  -(decay * ((max delta_days 0 : ℤ) : ℚ) / half_life_days)

/-- One candidate row as the ranker reads it: comment text, metadata fields,
and the whole-day age delta_days = (today - publish_date).days. -/
structure RankCandidate where
  comment_id : Nat
  comment : String
  quality_score : ℚ
  review_count : Nat
  useful_count : Nat
  delta_days : ℤ
deriving DecidableEq

instance : Inhabited RankCandidate := ⟨⟨0, "", 0, 0, 0, 0⟩⟩

/-- One output row of MultiFactorRanker.rank: the candidate plus the scores
and ranks added by the ranker. -/
structure RankedResult where
  cand : RankCandidate
  rerank_score : ℚ
  rerank_rank : Nat
  final_score : ℚ
  final_rank : Nat
deriving DecidableEq

/-- relevance_score[i] = relevance_map.get(i, 0), with relevance_map the
index-to-score dict returned by the rerank service. -/
def relevanceScores (relevance_map : List (Nat × ℚ)) (n : Nat) : List ℚ :=
  (List.range n).map (fun i => (dlookup relevance_map i).getD 0)

/-- final_score of one candidate:
w_relevance * relevance + w_quality * quality/10 + w_length * log(len+1)/7.51
+ w_review * log(review_count+1)/6.32 + w_useful * log(useful_count+1)/3.64
+ w_recency * exp(-decay * days_ago / half_life_days). -/
def candidateFinalScore (logFn expFn : ℚ → ℚ) (p : RankParams) (decay : ℚ) (rel : ℚ)
    (c : RankCandidate) : ℚ :=
  p.w_relevance * rel +
  p.w_quality * (c.quality_score / 10) +
  p.w_length * (logFn ((c.comment.length : ℚ) + 1) / (751/100)) +
  p.w_review * (logFn ((c.review_count : ℚ) + 1) / (632/100)) +
  p.w_useful * (logFn ((c.useful_count : ℚ) + 1) / (364/100)) +
  p.w_recency * expFn (recencyExponent decay p.half_life_days c.delta_days)

/-- The comparison behind np.argsort: ascending by value. -/
def idxAsc (a b : Nat × ℚ) : Prop := a.2 ≤ b.2

instance : DecidableRel idxAsc := fun a b => inferInstanceAs (Decidable (a.2 ≤ b.2))

instance : IsTotal (Nat × ℚ) idxAsc := ⟨fun a b => le_total a.2 b.2⟩

instance : IsTrans (Nat × ℚ) idxAsc := ⟨fun _ _ _ h h2 => le_trans h h2⟩

/-- np.argsort(values): the indices of values in ascending value order.  For
equal values NumPy's default sort keeps input order on the small arrays of
the concrete cases below (its quicksort falls back to insertion sort there);
we fix that stable order. -/
def argsortAsc (values : List ℚ) : List Nat :=
  ((values.enum).insertionSort idxAsc).map Prod.fst

/-- The relevance_score array of MultiFactorRanker.rank. -/
def rankRelevance (relevance_map : List (Nat × ℚ)) (candidates : List RankCandidate) :
    List ℚ :=
  relevanceScores relevance_map candidates.length

/-- The final_score array of MultiFactorRanker.rank (elementwise over the
candidate rows). -/
def rankFinals (logFn expFn : ℚ → ℚ) (p : RankParams) (relevance_map : List (Nat × ℚ))
    (candidates : List RankCandidate) (time_sensitivity : Option String) : List ℚ :=
  (List.range candidates.length).map (fun i =>
    candidateFinalScore logFn expFn p (decayFor p time_sensitivity)
      ((rankRelevance relevance_map candidates).getD i 0) (candidates.getD i default))

/-- MultiFactorRanker.rank: per-row final scores,
sorted_index = np.argsort(final_score)[::-1] (so ties come out in REVERSED
input order), rerank ranks over the full candidate list via
np.argsort(relevance_score)[::-1], and the top-k rows assembled in sorted
order with 1-based final_rank.  Empty input returns []. -/
def rank (logFn expFn : ℚ → ℚ) (p : RankParams) (relevance_map : List (Nat × ℚ))
    (candidates : List RankCandidate) (time_sensitivity : Option String) (topk : Nat) :
    List RankedResult :=
  if candidates.isEmpty then [] else
  ((((argsortAsc (rankFinals logFn expFn p relevance_map candidates
      time_sensitivity)).reverse.take topk).enum).map (fun pr =>
    { cand := candidates.getD pr.2 default
      rerank_score := (rankRelevance relevance_map candidates).getD pr.2 0
      rerank_rank :=
        (argsortAsc (rankRelevance relevance_map candidates)).reverse.indexOf pr.2 + 1
      final_score := (rankFinals logFn expFn p relevance_map candidates
        time_sensitivity).getD pr.2 0
      final_rank := pr.1 + 1 }))

/-! ### Sortedness of the ranker output -/

theorem pairwise_getD_argsortAsc (values : List ℚ) :
    List.Pairwise (fun i j => values.getD i 0 ≤ values.getD j 0) (argsortAsc values) := by
  have hs : List.Pairwise idxAsc ((values.enum).insertionSort idxAsc) :=
    List.sorted_insertionSort idxAsc values.enum
  have hmem : ∀ p ∈ (values.enum).insertionSort idxAsc, values.getD p.1 0 = p.2 := by
    intro p hp
    have hp2 : p ∈ values.enum := (List.perm_insertionSort idxAsc values.enum).mem_iff.mp hp
    obtain ⟨i, a⟩ := p
    rw [List.getD_eq_getD_get?, List.mk_mem_enum_iff_get?.mp hp2]
    rfl
  have hs2 : List.Pairwise (fun p q : Nat × ℚ => values.getD p.1 0 ≤ values.getD q.1 0)
      ((values.enum).insertionSort idxAsc) := by
    refine List.Pairwise.imp_of_mem ?_ hs
    intro p q hp hq hr
    rw [hmem p hp, hmem q hq]
    exact hr
  exact List.Pairwise.map Prod.fst (fun a b h => h) hs2

/-- C7 (amended): MultiFactorRanker.rank orders its output by final_score
descending; nothing more — equal final scores come out in the reverse of
argsort's stable order, with no rerank-score or comment_id tiebreak. -/
theorem c7_rank_sorted_by_final_score (logFn expFn : ℚ → ℚ) (p : RankParams)
    (relevance_map : List (Nat × ℚ)) (candidates : List RankCandidate)
    (time_sensitivity : Option String) (topk : Nat) :
    List.Pairwise (fun a b => b ≤ a)
      ((rank logFn expFn p relevance_map candidates time_sensitivity topk).map
        RankedResult.final_score) := by
  unfold rank
  by_cases hc : candidates.isEmpty
  · simp [hc]
  · simp only [hc, Bool.false_eq_true, if_false]
    set finals := rankFinals logFn expFn p relevance_map candidates time_sensitivity with hfin
    have h1 : List.Pairwise (fun i j => finals.getD j 0 ≤ finals.getD i 0)
        (argsortAsc finals).reverse :=
      List.pairwise_reverse.mpr (pairwise_getD_argsortAsc finals)
    have h2 : List.Pairwise (fun i j => finals.getD j 0 ≤ finals.getD i 0)
        ((argsortAsc finals).reverse.take topk) :=
      h1.sublist (List.take_sublist _ _)
    have hmapped : ((((argsortAsc finals).reverse.take topk).enum).map Prod.snd).Pairwise
        (fun i j => finals.getD j 0 ≤ finals.getD i 0) := by
      rw [List.enum_map_snd]
      exact h2
    have h3 := List.pairwise_map.mp hmapped
    exact List.pairwise_map.mpr (List.Pairwise.map _ (fun a b h => h) h3)

/-! ### A final-score tie that the ranker does not break by rerank score -/

/-- np.log restricted to the arguments occurring in the tie example below:
every argument there is 1, and np.log(1) = 0.0 exactly, also in IEEE floats. -/
def logStub : ℚ → ℚ := fun _ => 0

/-- np.exp restricted to the arguments occurring in the tie example below:
every argument there is 0, and np.exp(0) = 1.0 exactly, also in IEEE floats. -/
def expStub : ℚ → ℚ := fun _ => 1

/-- Candidate 0: empty comment, zero counts, published today; its final score
comes from its rerank relevance 0.5: 0.40 * 0.5 + 0.20 * exp(0) = 0.4. -/
def tieCandidateA : RankCandidate :=
  { comment_id := 0, comment := "", quality_score := 0, review_count := 0,
    useful_count := 0, delta_days := 0 }

/-- Candidate 1: identical to candidate 0 except rerank relevance 0 and
quality 8: 0.25 * 0.8 + 0.20 * exp(0) = 0.4 — the same final score. -/
def tieCandidateB : RankCandidate :=
  { comment_id := 1, comment := "", quality_score := 8, review_count := 0,
    useful_count := 0, delta_days := 0 }

/-- C7 (counterexample): the two candidates tie on final_score 0.4 and have
distinct rerank scores 0.5 and 0, yet rank returns comment 1 (rerank 0)
FIRST: np.argsort(final)[::-1] reverses the stable tie order and no
rerank-score or comment_id tiebreak exists. -/
theorem c7_tie_not_broken_by_rerank :
    ((rank logStub expStub defaultRankParams [(0, 1/2), (1, 0)]
        [tieCandidateA, tieCandidateB] none 10).map (fun r => r.cand.comment_id) =
      [1, 0]) ∧
    ((rank logStub expStub defaultRankParams [(0, 1/2), (1, 0)]
        [tieCandidateA, tieCandidateB] none 10).map RankedResult.final_score =
      [2/5, 2/5]) ∧
    ((rank logStub expStub defaultRankParams [(0, 1/2), (1, 0)]
        [tieCandidateA, tieCandidateB] none 10).map RankedResult.rerank_score =
      [0, 1/2]) := by
  refine ⟨?_, ?_, ?_⟩ <;>
    norm_num [rank, rankFinals, rankRelevance, relevanceScores, candidateFinalScore,
      decayFor, recencyExponent, argsortAsc, dlookup, logStub, expStub, defaultRankParams,
      tieCandidateA, tieCandidateB, List.insertionSort, List.orderedInsert, idxAsc,
      List.enum, List.enumFrom, List.range_succ, List.range_zero]

/-! ### Recency decay (C6) -/

/-- C6 (counterexample): for a review published today (days_ago = 0) the
recency exponent is 0 for every time sensitivity, so the recency scores for
none and implied coincide (both exp 0) instead of strictly decreasing. -/
theorem c6_equal_recency_at_zero_days :
    recencyExponent (decayFor defaultRankParams none) 180 0 = 0 ∧
    recencyExponent (decayFor defaultRankParams (some "implied")) 180 0 = 0 ∧
    Real.exp ((recencyExponent (decayFor defaultRankParams (some "implied")) 180 0 : ℚ) : ℝ) =
      Real.exp ((recencyExponent (decayFor defaultRankParams none) 180 0 : ℚ) : ℝ) ∧
    ¬ (Real.exp ((recencyExponent (decayFor defaultRankParams (some "implied")) 180 0 : ℚ) : ℝ) <
        Real.exp ((recencyExponent (decayFor defaultRankParams none) 180 0 : ℚ) : ℝ)) := by
  have h1 : recencyExponent (decayFor defaultRankParams none) 180 0 = 0 := by
    norm_num [recencyExponent, decayFor, defaultRankParams]
  have h2 : recencyExponent (decayFor defaultRankParams (some "implied")) 180 0 = 0 := by
    norm_num [recencyExponent, decayFor, defaultRankParams]
  refine ⟨h1, h2, ?_, ?_⟩
  · rw [h1, h2]
  · rw [h1, h2]
    exact lt_irrefl _

/-- C6 (amended): with the default parameters the decay is 0.5 / 1.0 / 1.5
for none / implied / clear, and for a review at least one whole day old the
recency score exp(-decay * days_ago / half_life) strictly decreases from none
to implied to clear; at days_ago = 0 all three recency scores are equal. -/
theorem c6_recency_decay_steps (delta_days : ℤ) (h : 1 ≤ delta_days) :
    decayFor defaultRankParams none = 1/2 ∧
    decayFor defaultRankParams (some "implied") = 1 ∧
    decayFor defaultRankParams (some "clear") = 3/2 ∧
    Real.exp ((recencyExponent (3/2) 180 delta_days : ℚ) : ℝ) <
      Real.exp ((recencyExponent 1 180 delta_days : ℚ) : ℝ) ∧
    Real.exp ((recencyExponent 1 180 delta_days : ℚ) : ℝ) <
      Real.exp ((recencyExponent (1/2) 180 delta_days : ℚ) : ℝ) := by
  have hmax : (max delta_days 0) = delta_days := max_eq_left (le_trans zero_le_one h)
  have hd : (1 : ℚ) ≤ ((delta_days : ℤ) : ℚ) := by exact_mod_cast h
  have hcl : ("clear" : String) ≠ "implied" := by decide
  refine ⟨by simp [decayFor, defaultRankParams] <;> norm_num,
          by simp [decayFor, defaultRankParams] <;> norm_num,
          by simp [decayFor, defaultRankParams, hcl] <;> norm_num, ?_, ?_⟩
  · apply Real.exp_lt_exp.mpr
    have hlt : recencyExponent (3/2) 180 delta_days < recencyExponent 1 180 delta_days := by
      unfold recencyExponent
      rw [hmax]
      linarith
    exact_mod_cast hlt
  · apply Real.exp_lt_exp.mpr
    have hlt : recencyExponent 1 180 delta_days < recencyExponent (1/2) 180 delta_days := by
      unfold recencyExponent
      rw [hmax]
      linarith
    exact_mod_cast hlt

/-- Witness for C6 at the spec's scenario 5: a review 365 days old. -/
theorem c6_recency_decay_steps_witness :
    ((1 : ℤ) ≤ 365) ∧
    (decayFor defaultRankParams none = 1/2 ∧
     decayFor defaultRankParams (some "implied") = 1 ∧
     decayFor defaultRankParams (some "clear") = 3/2 ∧
     Real.exp ((recencyExponent (3/2) 180 365 : ℚ) : ℝ) <
       Real.exp ((recencyExponent 1 180 365 : ℚ) : ℝ) ∧
     Real.exp ((recencyExponent 1 180 365 : ℚ) : ℝ) <
       Real.exp ((recencyExponent (1/2) 180 365 : ℚ) : ℝ)) :=
  ⟨by norm_num, c6_recency_decay_steps 365 (by norm_num)⟩

end HotelRAG
